import Mathlib

/-!
Verification development for the inoliblist crawler (`inoliblist.py`).

The development shallowly embeds the parts of the program relevant to its
folder-classification heuristic (`find_library`), the bounded subfolder scan
(`find_library_folder`), the retrying URL fetcher (`get_json_from_url` /
`determine_urlopen_retry`), the rate limiter (`check_rate_limiting`), the
per-page search retry loop of `search_repositories`, and the duplicate check
of `populate_row`.

Modelling conventions:
* Python's three-valued `find_library` result (`True` / `None` / `False`)
  is embedded as `Option Bool` (`some true` / `none` / `some false`).
* `re.fullmatch` with `re.IGNORECASE` over the pattern sublanguage actually
  used by the source (literals, `.`, `.*`, `\.`, `[^\.]*`, `^`, `$`) is
  implemented by a small fuel-driven matcher.  Under `fullmatch` a `$` is
  satisfiable only at the end of the subject and `^` only at position 0.
* Network effects are embedded as oracles (environments): a folder listing
  oracle for repositories, an attempt-outcome oracle for `urlopen`, a
  reading oracle for the rate-limit endpoint.  Side effects that matter to
  the claims (sleeps, rate-limit re-checks, which subfolders get fetched)
  are recorded in explicit event traces.  Logging and `print` calls are not
  modelled.  Paginated listings are modelled as delivered in one page.
-/

namespace Inoliblist

/-! ### Character-list utilities (Python string primitives) -/

/-- `startsWithList s p`: `p` is a prefix of `s` (Python `str.startswith`). -/
def startsWithList : List Char → List Char → Bool
  | _, [] => true
  | [], _ :: _ => false
  | c :: s, p :: ps => (c == p) && startsWithList s ps

/-- Python `str.endswith`: the last `suffix.length` characters equal `suffix`. -/
def endsWithList (s suffix : List Char) : Bool :=
  startsWithList (s.drop (s.length - suffix.length)) suffix

/-- Python `haystack.find(needle) != -1`: substring containment. -/
def containsSub (needle : List Char) : List Char → Bool
  | [] => needle.isEmpty
  | c :: rest => startsWithList (c :: rest) needle || containsSub needle rest

/-- Python `str.split` on a set of single characters (also models
`re.split` with a character class): empty chunks are kept. -/
def splitCh (isSep : Char → Bool) : List Char → List (List Char)
  | [] => [[]]
  | c :: rest =>
    if isSep c then [] :: splitCh isSep rest
    else
      match splitCh isSep rest with
      | [] => [[c]]
      | g :: gs => (c :: g) :: gs

/-- Python slice `s[-n:]` (whole string when shorter than `n`). -/
def lastN (n : Nat) (s : List Char) : List Char := s.drop (s.length - n)

/-! ### A regex matcher for the source's pattern sublanguage

The source compiles its whitelist/blacklist patterns with
`re.compile(pattern, flags=re.IGNORECASE)` and applies `.fullmatch(name)`.
Every pattern in the lists embedded below uses only: literal characters,
escaped dot `\.`, wildcard `.`, star `.*`, the class-star `[^\.]*`, and
the anchors `^` / `$`. -/

inductive RegexTok where
  | lit (c : Char)
  | dot
  | dotStar
  | nonDotStar
  | caret
  | dollar
deriving DecidableEq

/-- Translate a pattern string (as written in the source) to tokens. -/
def parsePat : List Char → List RegexTok
  | [] => []
  | '\\' :: c :: rest => RegexTok.lit c :: parsePat rest
  | '[' :: '^' :: '\\' :: '.' :: ']' :: '*' :: rest => RegexTok.nonDotStar :: parsePat rest
  | '.' :: '*' :: rest => RegexTok.dotStar :: parsePat rest
  | '.' :: rest => RegexTok.dot :: parsePat rest
  | '^' :: rest => RegexTok.caret :: parsePat rest
  | '$' :: rest => RegexTok.dollar :: parsePat rest
  | c :: rest => RegexTok.lit c :: parsePat rest

/-- Case-insensitive character comparison (`re.IGNORECASE`). -/
def charIEq (a b : Char) : Bool := a.toLower == b.toLower

/-- Fuel-driven matcher.  `atStart` tracks whether position 0 has been
left (for mid-pattern `^`); under `fullmatch`, `$` demands the end of the
subject, `.` does not match a newline, and the whole subject must be
consumed.  The fuel passed by `regexFullmatchCI` strictly dominates the
recursion depth, so the `0` clause is unreachable. -/
def tokMatch : Nat → List RegexTok → List Char → Bool → Bool
  | 0, _, _, _ => false
  | _ + 1, [], [], _ => true
  | _ + 1, [], _ :: _, _ => false
  | fuel + 1, RegexTok.caret :: ts, s, atStart => atStart && tokMatch fuel ts s atStart
  | fuel + 1, RegexTok.dollar :: ts, s, atStart => s.isEmpty && tokMatch fuel ts s atStart
  | _ + 1, RegexTok.lit _ :: _, [], _ => false
  | fuel + 1, RegexTok.lit c :: ts, d :: s, _ => charIEq c d && tokMatch fuel ts s false
  | _ + 1, RegexTok.dot :: _, [], _ => false
  | fuel + 1, RegexTok.dot :: ts, d :: s, _ => !(d == '\n') && tokMatch fuel ts s false
  | fuel + 1, RegexTok.dotStar :: ts, [], atStart => tokMatch fuel ts [] atStart
  | fuel + 1, RegexTok.dotStar :: ts, d :: s, atStart =>
    tokMatch fuel ts (d :: s) atStart ||
      (!(d == '\n') && tokMatch fuel (RegexTok.dotStar :: ts) s false)
  | fuel + 1, RegexTok.nonDotStar :: ts, [], atStart => tokMatch fuel ts [] atStart
  | fuel + 1, RegexTok.nonDotStar :: ts, d :: s, atStart =>
    tokMatch fuel ts (d :: s) atStart ||
      (!(d == '.') && tokMatch fuel (RegexTok.nonDotStar :: ts) s false)

/-- `re.compile(pat, flags=re.IGNORECASE).fullmatch(name)` as a Bool. -/
def regexFullmatchCI (pat : String) (name : String) : Bool :=
  let ts := parsePat pat.data
  tokMatch (ts.length + name.data.length + 1) ts name.data true

/-! ### Configuration constants (transcribed from the source) -/

def rate_limit_reset_wait_additional_delay : Nat := 180

def check_rate_limiting_after_exception : String := "HTTPError: HTTP Error 503"

def urlopen_retry_exceptions : List String :=
  ["HTTPError: HTTP Error 403",
   "HTTPError: HTTP Error 502",
   check_rate_limiting_after_exception,
   "RemoteDisconnected",
   "ConnectionResetError",
   "ConnectionRefusedError",
   "<urlopen error [WinError 10061] No connection could be made because the target machine actively refused it>"]

def urlopen_retry_delay : Nat := 60
def maximum_urlopen_retries : Nat := 5

def search_retry_delay : Nat := 60
def maximum_search_retries : Nat := 10

def administrative_file_whitelist : List String :=
  ["^\\..*",
   "^[^\\.]*$",
   "^.*\\.adoc$",
   "^.*\\.bmp$",
   "^.*\\.fzz$",
   "^.*\\.html$",
   "^.*\\.gif$",
   "^.*\\.jpeg$",
   "^.*\\.jpg$",
   "^.*\\.json$",
   "^.*\\.md$",
   "^.*\\.mk$",
   "^.*\\.png$",
   "^.*\\.pdf$",
   "^.*\\.rst$",
   "^.*\\.sln$",
   "^.*\\.textile$",
   "^.*\\.txt$",
   "^thumbs.db$",
   "^.*\\.vcxproj$",
   "^.*\\.vcxproj.filters$",
   "^.*\\.yaml$",
   "^.*\\.yml$",
   "^.*\\.zip$",
   "^platformio.ini$"]

def header_file_extensions : List String :=
  [".h", ".H", ".hh", ".Hh", ".HH", ".hpp", ".Hpp", ".HPP"]

def examples_folder_names : List String :=
  ["^examples$",
   "^example$"]

/-- The source list has a missing comma after `r"^3dmodel.$"`, so Python's
adjacent-string-literal concatenation makes `"^3dmodel.$^android$"` a single
(unsatisfiable) pattern; it is transcribed verbatim. -/
def library_subfolder_blacklist : List String :=
  ["^\\..*",
   "^3dmodel.$^android$",
   "^android.app$",
   "^androidapp$",
   "^app$",
   "^apps$",
   "^arduino.sketch.*",
   "^arduinosketch.*",
   "^assets$",
   "^bin$",
   "^board$",
   "^bom$",
   "^bootloader.*",
   "^cad$",
   "^cmake.*",
   "^compiled$",
   "^cores$",
   "^data$",
   ".*datasheet.*",
   "^demo$",
   "^demos$",
   "^dependencies$",
   "^design$",
   "^diagrams$",
   "^doc$",
   "^docs$",
   "^documentation$",
   "^documents$",
   "^eagle$",
   "^etc$",
   "^example$",
   "^examples$",
   "^extra$",
   "^extras$",
   "^firmware$",
   ".*fritzing.*",
   "^gerbers$",
   "^graphics$",
   "^hardware$",
   "^html",
   "^image$",
   "^im.genes$",
   "^imagens$",
   "^images$",
   "^img$",
   "^imgs$",
   "^java$",
   "^js$",
   "^kicad.*",
   "^lib$",
   "^matlab$",
   "^media$",
   "^misc$",
   "^models$",
   "^node\\.js$",
   "^nodejs$",
   "^openscad$",
   "^other$",
   "^pcb.*$",
   "^pi$",
   "^pdf.*$",
   "^photos$",
   "^php$",
   "^pics$",
   "^pictures$",
   "^presentation$",
   "^processing$",
   "^projectsettings$",
   "^python$",
   "^python.code.*",
   "^python.script.*",
   "^raspberry$",
   "^raspberry.*pi$",
   "^raspi$",
   "^readme.*$",
   "^reference$",
   "^references$",
   "^report$",
   "^resources$",
   "^rpi$",
   "^ruby$",
   "^samples$",
   "^schematic.*",
   "^screenshot.$",
   "^scripts$",
   "^sketch$",
   "^sketch_.*",
   ".*sketchbook.*",
   "^sketches$",
   "^slic3r$",
   "^solidworks$",
   "^stl$",
   "^test$",
   "^tests$",
   "^tools$",
   "^unity$",
   "^unitypackage.*",
   "^utils$",
   "^variants$",
   "^web$",
   "^website$",
   "^www"]

/-! ### Folder entries and the name classifiers used by `find_library` -/

/-- One item of a GitHub contents listing: its `name` and `type` fields
(the source compares `type` against the strings `"file"` and `"dir"`). -/
structure FolderEntry where
  name : String
  type : String
deriving DecidableEq

def is_header_file (name : String) : Bool :=
  header_file_extensions.any (fun ext => endsWithList name.data ext.data)

def is_sketch_file (name : String) : Bool :=
  endsWithList name.data (".ino").data || endsWithList name.data (".pde").data

def is_administrative_file (name : String) : Bool :=
  administrative_file_whitelist.any (fun pat => regexFullmatchCI pat name)

def is_examples_folder (name : String) : Bool :=
  examples_folder_names.any (fun pat => regexFullmatchCI pat name)

def is_blacklisted_subfolder (name : String) : Bool :=
  library_subfolder_blacklist.any (fun pat => regexFullmatchCI pat name)

/-! ### `find_library` -/

/-- The six local flags accumulated by `find_library`'s scan loop. -/
structure FindFlags where
  metadata_file_found : Bool
  keywords_dot_txt_found : Bool
  header_file_found : Bool
  sketch_file_found : Bool
  examples_folder_found : Bool
  only_administrative_files_found : Bool
deriving DecidableEq

def findFlags0 : FindFlags := ⟨false, false, false, false, false, true⟩

/-- First block of the loop body (runs in both modes): metadata files,
`keywords.txt`, and the header-extension check in the trailing `else`. -/
def scan_item_base (f : FindFlags) (it : FolderEntry) : FindFlags :=
  if it.type == "file" then
    if it.name == "library.properties" then { f with metadata_file_found := true }
    else if it.name == "library.json" then { f with metadata_file_found := true }
    else if it.name == "keywords.txt" then { f with keywords_dot_txt_found := true }
    else if is_header_file it.name then { f with header_file_found := true }
    else f
  else f

/-- Second block of the loop body (verification mode only): sketch files,
the administrative whitelist, and examples folders. -/
def scan_item_verify (verify : Bool) (f : FindFlags) (it : FolderEntry) : FindFlags :=
  if verify then
    if it.type == "file" then
      let f1 := if is_sketch_file it.name then { f with sketch_file_found := true } else f
      if !(is_administrative_file it.name) then
        { f1 with only_administrative_files_found := false }
      else f1
    else if it.type == "dir" then
      if is_examples_folder it.name then { f with examples_folder_found := true } else f
    else f
  else f

def scan_folder_item (verify : Bool) (f : FindFlags) (it : FolderEntry) : FindFlags :=
  scan_item_verify verify (scan_item_base f it) it

/-- The decision chain at the end of `find_library`, verbatim from the
source (`True` ↦ `some true`, `None` ↦ `none`, `False` ↦ `some false`). -/
def library_verdict (verify metadata_file_found keywords_dot_txt_found header_file_found
    sketch_file_found examples_folder_found only_administrative_files_found : Bool) :
    Option Bool :=
  if verify then
    if metadata_file_found then some true
    else if header_file_found && !sketch_file_found then some true
    else if header_file_found && (sketch_file_found &&
        (examples_folder_found || keywords_dot_txt_found)) then some true
    else if only_administrative_files_found then none
    else some false
  else
    if metadata_file_found then some true
    else if header_file_found then some true
    else some false

/-- `find_library(folder_listing, verify)`. -/
def find_library (folder_listing : List FolderEntry) (verify : Bool) : Option Bool :=
  let f := folder_listing.foldl (scan_folder_item verify) findFlags0
  library_verdict verify f.metadata_file_found f.keywords_dot_txt_found f.header_file_found
    f.sketch_file_found f.examples_folder_found f.only_administrative_files_found

/-! ### Observation signals over a listing (the spec's vocabulary) -/

/-- Entry is a recognized metadata file. -/
def md_of (it : FolderEntry) : Bool :=
  it.type == "file" && ((it.name == "library.properties") || (it.name == "library.json"))

/-- Entry is a keywords file. -/
def kw_of (it : FolderEntry) : Bool :=
  it.type == "file" && (it.name == "keywords.txt")

/-- Entry is a file with a recognized header extension. -/
def hdr_of (it : FolderEntry) : Bool :=
  it.type == "file" && is_header_file it.name

/-- Entry is a file with a sketch extension. -/
def sk_of (it : FolderEntry) : Bool :=
  it.type == "file" && is_sketch_file it.name

/-- Entry is a directory matching an examples-folder name. -/
def ex_of (it : FolderEntry) : Bool :=
  it.type == "dir" && is_examples_folder it.name

/-- Entry does not violate the administrative whitelist (directories are
not consulted by the source's check). -/
def adm_ok (it : FolderEntry) : Bool :=
  !(it.type == "file") || is_administrative_file it.name

def has_metadata_file (l : List FolderEntry) : Bool := l.any md_of

def has_keywords_file (l : List FolderEntry) : Bool := l.any kw_of

def has_header_file (l : List FolderEntry) : Bool := l.any hdr_of

def has_sketch_file (l : List FolderEntry) : Bool := l.any sk_of

def has_examples_folder (l : List FolderEntry) : Bool := l.any ex_of

/-- Every file entry of the listing matches the administrative whitelist. -/
def only_administrative_files (l : List FolderEntry) : Bool := l.all adm_ok

/-! ### `find_library_folder`

The repository is an oracle: the outcome of the two blind metadata probes
at the root, the blind `/{repo name}.h` probe, the root contents listing
(`none` models the HTTP 404 of an empty repository, or an undecodable /
timed-out listing — all of which make the source return `None`), and the
per-subfolder contents listing (`none` models the exception that makes the
source `break` out of the pagination loop with an empty accumulated
listing).  The second component of the result is the trace of subfolder
names whose listings were fetched and classified, in order; metadata
parsing and the two append-only side-effect log files are not modelled. -/
structure Repo where
  has_library_dot_properties_at_root : Bool
  has_library_dot_json_at_root : Bool
  root_header_probe : Bool
  root_listing : Option (List FolderEntry)
  subfolder_listing : String → Option (List FolderEntry)

/-- The `for root_folder_item in root_folder_listing:` loop: skip non-dir
entries and blacklisted names; fetch and classify the rest; the first
subfolder classified `True` terminates the scan. -/
def search_subfolders (repo : Repo) (verify : Bool) : List FolderEntry → Option String × List String
  | [] => (none, [])
  | it :: rest =>
    if (it.type == "dir") && !(is_blacklisted_subfolder it.name) then
      if find_library ((repo.subfolder_listing it.name).getD []) verify = some true then
        (some it.name, [it.name])
      else
        let r := search_subfolders repo verify rest
        (r.1, it.name :: r.2)
    else search_subfolders repo verify rest

/-- Root-classification stage of `find_library_folder`: dispatch on the
result of `find_library` over the root listing.  `True` terminates with
the root path; under verification `False` terminates with `None` while
`None` (inconclusive) falls through to the subfolder scan; without
verification `False` also falls through to the subfolder scan. -/
def root_dispatch (repo : Repo) (verify : Bool) (root_folder_listing : List FolderEntry) :
    Option Bool → Option String × List String
  | some true => (some ("/"), [])
  | some false =>
    if verify then (none, [])
    else search_subfolders repo verify root_folder_listing
  | none => search_subfolders repo verify root_folder_listing

/-- Root-listing stage of `find_library_folder`: a missing root listing
(404 of an empty repository, undecodable or timed-out response) yields
`None`. -/
def root_listing_dispatch (repo : Repo) (verify : Bool) :
    Option (List FolderEntry) → Option String × List String
  | none => (none, [])
  | some root_folder_listing =>
    root_dispatch repo verify root_folder_listing (find_library root_folder_listing verify)

/-- `find_library_folder(repository_object, row_list, verify)`; returns the
library folder (or `none`) together with the subfolder fetch trace. -/
def find_library_folder (repo : Repo) (verify : Bool) : Option String × List String :=
  if repo.has_library_dot_properties_at_root || repo.has_library_dot_json_at_root then
    (some ("/"), [])
  else if !verify && repo.root_header_probe then (some ("/"), [])
  else root_listing_dispatch repo verify repo.root_listing

/-! ### `get_json_from_url` and `determine_urlopen_retry`

One attempt of the `while` loop either succeeds with a response (body
emptiness plus the `Link` header) or raises an exception, whose
`str(exception.__class__.__name__) + ": " + str(exception)` rendering is
the oracle's string.  A JSON-decode failure is just such an exception
(its rendering starts with `JSONDecodeError`, which matches no retry
pattern).  Events record attempts, sleeps and forced rate-limit
re-checks. -/

structure UrlResponse where
  body_empty : Bool
  link : Option String
deriving DecidableEq

inductive AttemptOutcome where
  | ok (resp : UrlResponse)
  | err (desc : String)
deriving DecidableEq

structure FetchEnv where
  attempt : Nat → AttemptOutcome

inductive FetchEvent where
  | attempt (i : Nat)
  | rateCheck (api : String)
  | sleep (secs : Nat)
deriving DecidableEq

/-- The source stores `page_count` as the Python int `0` (empty body) or
`1` (default), but as the *string* split out of the `Link` header when a
`last` relation carries a `page=` parameter. -/
inductive PageCount where
  | int (n : Nat)
  | str (s : String)
deriving DecidableEq

structure FetchResult where
  json_empty : Bool
  additional_pages : Bool
  page_count : PageCount
deriving DecidableEq

inductive FetchFailure where
  | exc (desc : String)
  | timeoutError
deriving DecidableEq

def next_rel_marker : String := ">; rel=\"next\""
def last_rel_marker : String := ">; rel=\"last\""
def page_eq_marker : String := "page="

def isCommaCh (c : Char) : Bool := c == ','
def isLinkSepCh (c : Char) : Bool := c == '?' || (c == '&' || c == '>')
def isEqCh (c : Char) : Bool := c == '='

/-- Inner `for parameter in link:` loop — first `page=` parameter wins;
`parameter.split('=')[1]` is the value. -/
def page_param_loop : List (List Char) → PageCount
  | [] => PageCount.int 1
  | q :: rest =>
    if q.take 5 == page_eq_marker.data then PageCount.str (String.mk ((splitCh isEqCh q).getD 1 []))
    else page_param_loop rest

/-- Outer `for link in url_data.info()["Link"].split(','):` loop — the
first piece whose last 13 characters are `>; rel="last"` is inspected and
the loop breaks whether or not it yields a page number. -/
def link_piece_loop : List (List Char) → PageCount
  | [] => PageCount.int 1
  | p :: rest =>
    if lastN 13 p == last_rel_marker.data then page_param_loop (splitCh isLinkSepCh p)
    else link_piece_loop rest

def page_count_from_link (s : List Char) : PageCount :=
  link_piece_loop (splitCh isCommaCh s)

/-- The success path of `get_json_from_url`'s loop body. -/
def mk_fetch_result (resp : UrlResponse) : FetchResult :=
  if resp.body_empty then ⟨true, false, PageCount.int 0⟩
  else
    match resp.link with
    | none => ⟨false, false, PageCount.int 1⟩
    | some s => ⟨false, containsSub next_rel_marker.data s.data, page_count_from_link s.data⟩

/-- `determine_urlopen_retry(exception)`: retry iff the rendered exception
starts with one of the fixed patterns. -/
def determine_urlopen_retry (exception_string : String) : Bool :=
  urlopen_retry_exceptions.any (fun p => startsWithList exception_string.data p.data)

/-- The side effects `determine_urlopen_retry` performs on a retryable
exception: rate-limit re-checks for both classes when the rendering starts
with the 503 pattern, then the fixed sleep. -/
def retry_events (d : String) : List FetchEvent :=
  (if startsWithList d.data check_rate_limiting_after_exception.data then
    [FetchEvent.rateCheck ("core"), FetchEvent.rateCheck ("search")]
  else []) ++ [FetchEvent.sleep urlopen_retry_delay]

/-- `while retry_count <= maximum_urlopen_retries:` — `k` counts the
remaining loop iterations, `i` indexes the oracle. -/
def urlopen_loop (env : FetchEnv) : Nat → Nat → Except FetchFailure FetchResult × List FetchEvent
  | 0, _ => (Except.error FetchFailure.timeoutError, [])
  | k + 1, i =>
    match env.attempt i with
    | AttemptOutcome.ok resp => (Except.ok (mk_fetch_result resp), [FetchEvent.attempt i])
    | AttemptOutcome.err d =>
      if determine_urlopen_retry d then
        let r := urlopen_loop env k (i + 1)
        (r.1, FetchEvent.attempt i :: (retry_events d ++ r.2))
      else (Except.error (FetchFailure.exc d), [FetchEvent.attempt i])

/-- `get_json_from_url(url)` — the loop runs `maximum_urlopen_retries + 1`
times (initial attempt plus the retries), then raises `TimeoutError`. -/
def get_json_from_url (env : FetchEnv) : Except FetchFailure FetchResult × List FetchEvent :=
  urlopen_loop env (maximum_urlopen_retries + 1) 0

/-- Expected trace of `count` consecutive retried attempts starting at
oracle index `i` (used to state the retry-policy claim). -/
def retry_trace (env : FetchEnv) : Nat → Nat → List FetchEvent
  | _, 0 => []
  | i, count + 1 =>
    FetchEvent.attempt i ::
      ((match env.attempt i with
        | AttemptOutcome.ok _ => []
        | AttemptOutcome.err d => retry_events d) ++ retry_trace env (i + 1) count)

/-- Spec-side reading of the `Link` header: the `page=` value of the first
comma-piece that is a `last` relation, if any. -/
def last_rel_page (s : List Char) : Option (List Char) :=
  ((splitCh isCommaCh s).find? (fun p => lastN 13 p == last_rel_marker.data)).bind
    (fun p => ((splitCh isLinkSepCh p).find? (fun q => q.take 5 == page_eq_marker.data)).map
      (fun q => (splitCh isEqCh q).getD 1 []))

/-- Spec-side `totalPages` for a non-empty body. -/
def page_count_spec (link : Option String) : PageCount :=
  match link with
  | none => PageCount.int 1
  | some s =>
    match last_rel_page s.data with
    | none => PageCount.int 1
    | some v => PageCount.str (String.mk v)

/-! ### The per-page retry loop of `search_repositories` -/

/-- One page response: the `incomplete_results` flag and `total_count`. -/
structure SearchPage where
  incomplete : Bool
  total_count : Nat
deriving DecidableEq

inductive SearchEvent where
  | fetch (page : Nat) (tryIdx : Nat)
  | sleep (secs : Nat)
deriving DecidableEq

/-- A page response that triggers a retry. -/
def search_result_bad (p : SearchPage) : Bool := p.incomplete || (p.total_count == 0)

/-- `while incomplete_results and search_retry_count < maximum_search_retries:`
— `k` remaining iterations, `i` the oracle index, `last` the last response
fetched (accepted when the retry budget runs out). -/
def search_page_loop (tries : Nat → SearchPage) (page : Nat) :
    Nat → Nat → SearchPage → SearchPage × List SearchEvent
  | 0, _, last => (last, [])
  | k + 1, i, _ =>
    let p := tries i
    if p.incomplete then
      let r := search_page_loop tries page k (i + 1) p
      (r.1, SearchEvent.fetch page i :: (SearchEvent.sleep search_retry_delay :: r.2))
    else if p.total_count == 0 then
      let r := search_page_loop tries page k (i + 1) p
      (r.1, SearchEvent.fetch page i :: r.2)
    else (p, [SearchEvent.fetch page i])

/-- Fetching one page of one search window, with its retry loop. -/
def fetch_search_page (tries : Nat → SearchPage) (page : Nat) : SearchPage × List SearchEvent :=
  search_page_loop tries page maximum_search_retries 0 ⟨true, 0⟩

/-- Spec-side expected trace of `count` rejected responses starting at
oracle index `i`: every try fetches the *same* page, and only an
`incomplete` response is followed by the fixed sleep. -/
def search_trace (tries : Nat → SearchPage) (page : Nat) : Nat → Nat → List SearchEvent
  | _, 0 => []
  | i, count + 1 =>
    SearchEvent.fetch page i ::
      ((if (tries i).incomplete then [SearchEvent.sleep search_retry_delay] else []) ++
        search_trace tries page (i + 1) count)

/-! ### `check_rate_limiting` -/

/-- One response of the `https://api.github.com/rate_limit` endpoint. -/
structure RLReading where
  core_remaining : Nat
  search_remaining : Nat
  core_reset : Nat
  search_reset : Nat
deriving DecidableEq

/-- The module-level dict `last_api_requests_remaining_value`. -/
structure RLState where
  search : Nat
  core : Nat
deriving DecidableEq

def RLState.getApi (st : RLState) (api : String) : Nat :=
  if api == "search" then st.search else st.core

def RLReading.remainingOf (r : RLReading) (api : String) : Nat :=
  if api == "search" then r.search_remaining else r.core_remaining

def RLReading.resetOf (r : RLReading) (api : String) : Nat :=
  if api == "search" then r.search_reset else r.core_reset

inductive RLEvent where
  | fetchRateLimit (idx : Nat)
  | waitUntil (t : Nat)
deriving DecidableEq

/-- `check_rate_limiting(api_type)`.  `readings` is the oracle of
successive rate-limit endpoint responses, `idx` the next oracle index,
`st` the cached state; the busy-wait until past the reset time is a single
`waitUntil` event and the tail recursion is fuelled (`none` = out of
fuel, i.e. the authoritative value never became positive within `fuel`
re-checks). -/
def check_rate_limiting (readings : Nat → RLReading) (api : String) :
    Nat → Nat → RLState → Option (RLState × List RLEvent)
  | 0, _, _ => none
  | fuel + 1, idx, st =>
    if st.getApi api == 0 then
      let r := readings idx
      let st1 : RLState := ⟨r.search_remaining, r.core_remaining⟩
      if st1.getApi api == 0 then
        match check_rate_limiting readings api fuel (idx + 1) st1 with
        | none => none
        | some (st2, evs) =>
          some (st2, RLEvent.fetchRateLimit idx ::
            (RLEvent.waitUntil (r.resetOf api + rate_limit_reset_wait_additional_delay) :: evs))
      else some (st1, [RLEvent.fetchRateLimit idx])
    else some (st, [])

/-! ### The duplicate check of `populate_row`

The table is projected to its repository-URL column (the only column the
duplicate check consults).  `skip_gate` bundles the repository-name and
topic blacklist gates that run before the duplicate check in verification
mode; `library_folder` is the outcome of `find_library_folder`. -/

def isPySpaceCh (c : Char) : Bool :=
  c == ' ' || (c == '\t' || (c == '\n' || (c == '\r' || (c == '\x0b' || c == '\x0c'))))

/-- `cell.replace('\t', "    ").strip()` applied to every cell before the
row is appended. -/
def sanitize_cell (s : String) : String :=
  let replaced := s.data.foldr (fun c acc => if c == '\t' then ' ' :: (' ' :: (' ' :: (' ' :: acc))) else c :: acc) []
  String.mk (((replaced.dropWhile isPySpaceCh).reverse.dropWhile isPySpaceCh).reverse)

/-- `populate_row`, projected to the repository-URL column of the table. -/
def populate_row (table : List String) (html_url : String) (skip_gate : Bool)
    (library_folder : Option String) (verify : Bool) : List String :=
  if skip_gate then table
  else if table.any (fun readRow => readRow == html_url) then table
  else if library_folder.isNone && verify then table
  else table ++ [sanitize_cell html_url]

/-! ### Concrete inputs used by counterexamples and witnesses -/

/-- Root listing of the C3 counterexample repository: a non-administrative
non-header file (so root classification fails verification) next to a
subdirectory that contains a perfectly valid library. -/
def cexRoot : List FolderEntry := [⟨"foo.cpp", "file"⟩, ⟨"Talkie", "dir"⟩]

def cexRepo : Repo :=
  ⟨false, false, false, some cexRoot,
   fun nm => if nm == "Talkie" then some [⟨"Talkie.h", "file"⟩] else none⟩

/-- Root listing of the C3 witness repository: administrative-only root
with one non-blacklisted subdirectory. -/
def wRoot : List FolderEntry := [⟨"README.md", "file"⟩, ⟨"src", "dir"⟩]

def wRepo : Repo := ⟨false, false, false, some wRoot, fun _ => some []⟩

/-- Repository whose only subdirectory is deny-listed (C4 witness). -/
def blRepo : Repo := ⟨false, false, false, some [⟨".git", "dir"⟩], fun _ => some []⟩

/-- Every attempt raises a permanent (non-retryable) failure. -/
def env_permanent_failure : FetchEnv := ⟨fun _ => AttemptOutcome.err ("ValueError: boom")⟩

/-- Every attempt raises a retryable transient failure. -/
def env_transient_failure : FetchEnv :=
  ⟨fun _ => AttemptOutcome.err ("ConnectionResetError: [Errno 104] Connection reset by peer")⟩

/-- A successful first attempt with a paginated `Link` header. -/
def respC8 : UrlResponse :=
  ⟨false, some ("<https://x?page=2>; rel=\"next\", <https://x?page=9>; rel=\"last\"")⟩

def envC8 : FetchEnv := ⟨fun _ => AttemptOutcome.ok respC8⟩

/-- Search oracle: an incomplete page, then a zero-result page, then a
good page. -/
def triesC7 : Nat → SearchPage :=
  fun i => if i == 0 then ⟨true, 5⟩ else if i == 1 then ⟨false, 0⟩ else ⟨false, 3⟩

/-- Rate-limit oracle: first reading still exhausted, second one
replenished. -/
def readingsC6 : Nat → RLReading :=
  fun i => if i == 0 then ⟨0, 0, 100, 200⟩ else ⟨5, 7, 100, 200⟩

/-! ## Lemmas about `find_library` -/

lemma hdr_lp : is_header_file ("library.properties") = false := by decide

lemma hdr_lj : is_header_file ("library.json") = false := by decide

lemma hdr_kt : is_header_file ("keywords.txt") = false := by decide

/-- The first loop block accumulates the metadata / keywords / header
flags; the header flag sits in the `else` of the `elif` chain, but the
three special file names never carry a header extension, so the guard is
redundant. -/
lemma scan_item_base_eq (f : FindFlags) (it : FolderEntry) :
    scan_item_base f it =
      ⟨f.metadata_file_found || md_of it, f.keywords_dot_txt_found || kw_of it,
       f.header_file_found || hdr_of it, f.sketch_file_found, f.examples_folder_found,
       f.only_administrative_files_found⟩ := by
  rcases f with ⟨m, k, h, s, e, a⟩
  rcases it with ⟨n, ty⟩
  by_cases hty : ty = "file"
  · subst hty
    by_cases h1 : n = "library.properties"
    · subst h1
      simp [scan_item_base, md_of, kw_of, hdr_of, hdr_lp]
    · by_cases h2 : n = "library.json"
      · subst h2
        simp [scan_item_base, md_of, kw_of, hdr_of, hdr_lj]
      · by_cases h3 : n = "keywords.txt"
        · subst h3
          simp [scan_item_base, md_of, kw_of, hdr_of, hdr_kt]
        · by_cases h4 : is_header_file n = true
          · simp [scan_item_base, md_of, kw_of, hdr_of, h1, h2, h3, h4]
          · rw [Bool.not_eq_true] at h4
            simp [scan_item_base, md_of, kw_of, hdr_of, h1, h2, h3, h4]
  · have hty' : (ty == ("file" : String)) = false := by
      simpa using hty
    simp [scan_item_base, md_of, kw_of, hdr_of, hty']

/-- The verification-only loop block accumulates the sketch / examples /
administrative flags. -/
lemma scan_item_verify_eq (v : Bool) (f : FindFlags) (it : FolderEntry) :
    scan_item_verify v f it =
      ⟨f.metadata_file_found, f.keywords_dot_txt_found, f.header_file_found,
       f.sketch_file_found || (v && sk_of it),
       f.examples_folder_found || (v && ex_of it),
       f.only_administrative_files_found && (!v || adm_ok it)⟩ := by
  rcases f with ⟨m, k, h, s, e, a⟩
  rcases it with ⟨n, ty⟩
  cases v with
  | false => simp [scan_item_verify]
  | true =>
    by_cases hty : ty = "file"
    · subst hty
      by_cases hsk : is_sketch_file n = true
      · by_cases hadm : is_administrative_file n = true
        · simp [scan_item_verify, sk_of, ex_of, adm_ok, hsk, hadm]
        · rw [Bool.not_eq_true] at hadm
          simp [scan_item_verify, sk_of, ex_of, adm_ok, hsk, hadm]
      · rw [Bool.not_eq_true] at hsk
        by_cases hadm : is_administrative_file n = true
        · simp [scan_item_verify, sk_of, ex_of, adm_ok, hsk, hadm]
        · rw [Bool.not_eq_true] at hadm
          simp [scan_item_verify, sk_of, ex_of, adm_ok, hsk, hadm]
    · by_cases hdir : ty = "dir"
      · subst hdir
        by_cases hex : is_examples_folder n = true
        · simp [scan_item_verify, sk_of, ex_of, adm_ok, hex]
        · rw [Bool.not_eq_true] at hex
          simp [scan_item_verify, sk_of, ex_of, adm_ok, hex]
      · have hty' : (ty == ("file" : String)) = false := by simpa using hty
        have hdir' : (ty == ("dir" : String)) = false := by simpa using hdir
        simp [scan_item_verify, sk_of, ex_of, adm_ok, hty', hdir']

lemma scan_folder_item_eq (v : Bool) (f : FindFlags) (it : FolderEntry) :
    scan_folder_item v f it =
      ⟨f.metadata_file_found || md_of it, f.keywords_dot_txt_found || kw_of it,
       f.header_file_found || hdr_of it,
       f.sketch_file_found || (v && sk_of it),
       f.examples_folder_found || (v && ex_of it),
       f.only_administrative_files_found && (!v || adm_ok it)⟩ := by
  unfold scan_folder_item
  rw [scan_item_base_eq, scan_item_verify_eq]

lemma bool_or_push (a v x y : Bool) : ((a || (v && x)) || (v && y)) = (a || (v && (x || y))) := by
  revert a v x y
  decide

lemma bool_and_push (a v x y : Bool) :
    ((a && (!v || x)) && (!v || y)) = (a && (!v || (x && y))) := by
  revert a v x y
  decide

lemma foldl_scan_eq (v : Bool) (l : List FolderEntry) : ∀ f : FindFlags,
    l.foldl (scan_folder_item v) f =
      ⟨f.metadata_file_found || has_metadata_file l,
       f.keywords_dot_txt_found || has_keywords_file l,
       f.header_file_found || has_header_file l,
       f.sketch_file_found || (v && has_sketch_file l),
       f.examples_folder_found || (v && has_examples_folder l),
       f.only_administrative_files_found && (!v || only_administrative_files l)⟩ := by
  induction l with
  | nil =>
    intro f
    cases f
    simp [has_metadata_file, has_keywords_file, has_header_file, has_sketch_file,
      has_examples_folder, only_administrative_files]
  | cons it l ih =>
    intro f
    rw [List.foldl_cons, ih, scan_folder_item_eq]
    simp only [has_metadata_file, has_keywords_file, has_header_file, has_sketch_file,
      has_examples_folder, only_administrative_files, List.any_cons, List.all_cons]
    rw [Bool.or_assoc, Bool.or_assoc, Bool.or_assoc, bool_or_push, bool_or_push, bool_and_push]

/-- `find_library`, characterized by the spec-level signals. -/
lemma find_library_eq (l : List FolderEntry) (v : Bool) :
    find_library l v =
      library_verdict v (has_metadata_file l) (has_keywords_file l) (has_header_file l)
        (v && has_sketch_file l) (v && has_examples_folder l)
        (!v || only_administrative_files l) := by
  unfold find_library
  rw [foldl_scan_eq]
  rfl

lemma find_library_true_eq (l : List FolderEntry) :
    find_library l true =
      library_verdict true (has_metadata_file l) (has_keywords_file l) (has_header_file l)
        (has_sketch_file l) (has_examples_folder l) (only_administrative_files l) :=
  find_library_eq l true

lemma find_library_false_eq (l : List FolderEntry) :
    find_library l false =
      library_verdict false (has_metadata_file l) (has_keywords_file l) (has_header_file l)
        false false true :=
  find_library_eq l false

/-- C1: with verification on, `find_library` returns Found (`some true`)
iff a recognized metadata file is present, or a header-extension file is
present with no sketch file, or a header-extension file, a sketch file and
an examples directory or keywords file are all present; when none of these
hold it returns Inconclusive (`none`) iff every file of the listing
matches the administrative whitelist, and NotFound (`some false`)
otherwise. -/
theorem find_library_verify_characterization (l : List FolderEntry) :
    (find_library l true = some true ↔
      (has_metadata_file l = true ∨
        (has_header_file l = true ∧ has_sketch_file l = false) ∨
        (has_header_file l = true ∧ has_sketch_file l = true ∧
          (has_examples_folder l = true ∨ has_keywords_file l = true)))) ∧
    (find_library l true = none ↔
      (¬(has_metadata_file l = true ∨
          (has_header_file l = true ∧ has_sketch_file l = false) ∨
          (has_header_file l = true ∧ has_sketch_file l = true ∧
            (has_examples_folder l = true ∨ has_keywords_file l = true))) ∧
        only_administrative_files l = true)) ∧
    (find_library l true = some false ↔
      (¬(has_metadata_file l = true ∨
          (has_header_file l = true ∧ has_sketch_file l = false) ∨
          (has_header_file l = true ∧ has_sketch_file l = true ∧
            (has_examples_folder l = true ∨ has_keywords_file l = true))) ∧
        only_administrative_files l = false)) := by
  rw [find_library_true_eq]
  generalize has_metadata_file l = M
  generalize has_keywords_file l = K
  generalize has_header_file l = H
  generalize has_sketch_file l = S
  generalize has_examples_folder l = E
  generalize only_administrative_files l = A
  cases M <;> cases K <;> cases H <;> cases S <;> cases E <;> cases A <;> decide

/-- C2: with verification off, `find_library` returns Found (`some true`)
iff a recognized metadata file or a header-extension file is present, and
NotFound (`some false`) otherwise; Inconclusive (`none`) is never
returned. -/
theorem find_library_noverify_characterization (l : List FolderEntry) :
    (find_library l false = some true ↔
      (has_metadata_file l = true ∨ has_header_file l = true)) ∧
    (find_library l false = some false ↔
      ¬(has_metadata_file l = true ∨ has_header_file l = true)) ∧
    find_library l false ≠ none := by
  rw [find_library_false_eq]
  generalize has_metadata_file l = M
  generalize has_keywords_file l = K
  generalize has_header_file l = H
  cases M <;> cases K <;> cases H <;> decide

/-- C10: the empty listing classifies as Inconclusive (`none`) with
verification on — the only-administrative-files condition holds vacuously
— and as NotFound (`some false`) with verification off. -/
theorem find_library_empty_listing :
    find_library ([] : List FolderEntry) true = none ∧
      find_library ([] : List FolderEntry) false = some false :=
  ⟨rfl, rfl⟩

/-! ## Lemmas about `find_library_folder` -/

/-- Every name in the subfolder fetch trace is a non-blacklisted one. -/
lemma search_subfolders_not_blacklisted (repo : Repo) (v : Bool) (n : String)
    (hbl : is_blacklisted_subfolder n = true) :
    ∀ l : List FolderEntry, n ∉ (search_subfolders repo v l).2 := by
  intro l
  induction l with
  | nil => simp [search_subfolders]
  | cons it rest ih =>
    have hne : n ≠ it.name ∨ is_blacklisted_subfolder it.name = true := by
      by_cases h : n = it.name
      · right; rw [← h]; exact hbl
      · left; exact h
    simp only [search_subfolders]
    split_ifs with hc hf
    · rcases hne with hne | hne
      · simpa using hne
      · rw [Bool.and_eq_true] at hc
        rw [hne] at hc
        simp at hc
    · rcases hne with hne | hne
      · simpa [hne] using ih
      · rw [Bool.and_eq_true] at hc
        rw [hne] at hc
        simp at hc
    · exact ih

/-- When no non-blacklisted subdirectory classifies Found, the scan visits
exactly the non-blacklisted directory entries, in order. -/
lemma search_subfolders_all_notfound (repo : Repo) (v : Bool) :
    ∀ l : List FolderEntry,
      (∀ e ∈ l, e.type = "dir" → is_blacklisted_subfolder e.name = false →
        find_library ((repo.subfolder_listing e.name).getD []) v ≠ some true) →
      search_subfolders repo v l =
        (none, (l.filter (fun e => (e.type == "dir") && !(is_blacklisted_subfolder e.name))).map
          FolderEntry.name) := by
  intro l
  induction l with
  | nil => intro _; simp [search_subfolders]
  | cons it rest ih =>
    intro hno
    have ihrest := ih (fun e he h1 h2 => hno e (List.mem_cons_of_mem it he) h1 h2)
    by_cases hc : ((it.type == ("dir" : String)) && !(is_blacklisted_subfolder it.name)) = true
    · have hc' := hc
      rw [Bool.and_eq_true, beq_iff_eq, Bool.not_eq_true'] at hc'
      have hnf := hno it (List.mem_cons_self it rest) hc'.1 hc'.2
      simp only [search_subfolders, List.filter_cons, hc, if_pos, if_true]
      rw [if_neg hnf]
      simp [ihrest]
    · simp only [search_subfolders, List.filter_cons]
      rw [if_neg hc]
      rw [Bool.not_eq_true] at hc
      simp [hc, ihrest]

/-- C3 counterexample: with verification on, a root listing that
classifies NotFound (`some false`) makes `find_library_folder` return
`None` at once — no subfolder is ever fetched (empty trace), even though a
non-blacklisted subdirectory containing a valid library exists. -/
theorem root_notfound_terminates_without_subfolder_scan :
    find_library cexRoot true = some false ∧
    is_blacklisted_subfolder ("Talkie") = false ∧
    find_library ((cexRepo.subfolder_listing ("Talkie")).getD []) true = some true ∧
    find_library_folder cexRepo true = (none, []) :=
  ⟨by decide, by decide, by decide, by decide⟩

/-- C3 (amended): with verification on, whenever the root listing
classifies Inconclusive (`none`) — and only then — the scanner proceeds to
enumerate the root's immediate subdirectories, skipping deny-listed names,
and classifies each remaining one (visiting all of them when none is
Found); a NotFound root classification terminates immediately instead. -/
theorem inconclusive_root_triggers_subfolder_scan (repo : Repo) (l : List FolderEntry)
    (h1 : repo.has_library_dot_properties_at_root = false)
    (h2 : repo.has_library_dot_json_at_root = false)
    (h3 : repo.root_listing = some l)
    (h4 : find_library l true = none) :
    find_library_folder repo true = search_subfolders repo true l ∧
    ((∀ e ∈ l, e.type = "dir" → is_blacklisted_subfolder e.name = false →
        find_library ((repo.subfolder_listing e.name).getD []) true ≠ some true) →
      find_library_folder repo true =
        (none, (l.filter (fun e => (e.type == "dir") && !(is_blacklisted_subfolder e.name))).map
          FolderEntry.name)) := by
  have hmain : find_library_folder repo true = search_subfolders repo true l := by
    unfold find_library_folder
    rw [h1, h2, h3]
    simp [root_listing_dispatch, root_dispatch, h4]
  exact ⟨hmain, fun hno => hmain.trans (search_subfolders_all_notfound repo true l hno)⟩

theorem inconclusive_root_triggers_subfolder_scan_witness :
    find_library_folder wRepo true = (none, ["src"]) := by
  have h := (inconclusive_root_triggers_subfolder_scan wRepo wRoot rfl rfl rfl
    (by decide)).2 (by decide)
  exact h.trans (by decide)

/-- C4: a name that case-insensitively fullmatches some pattern of the
library-subfolder deny-list never appears in the subfolder fetch trace:
its listing is never fetched and it is never classified, regardless of the
repository's contents and of the verification mode. -/
theorem blacklisted_subfolder_never_fetched (repo : Repo) (verify : Bool) (n : String)
    (hbl : is_blacklisted_subfolder n = true) :
    n ∉ (find_library_folder repo verify).2 := by
  unfold find_library_folder
  split_ifs with hp hh
  · simp
  · simp
  · cases hr : repo.root_listing with
    | none => simp [root_listing_dispatch]
    | some l =>
      cases hf : find_library l verify with
      | none =>
        simpa [root_listing_dispatch, root_dispatch, hf] using
          search_subfolders_not_blacklisted repo verify n hbl l
      | some b =>
        cases b with
        | true => simp [root_listing_dispatch, root_dispatch, hf]
        | false =>
          cases verify with
          | true => simp [root_listing_dispatch, root_dispatch, hf]
          | false =>
            simpa [root_listing_dispatch, root_dispatch, hf] using
              search_subfolders_not_blacklisted repo false n hbl l

theorem blacklisted_subfolder_never_fetched_witness :
    is_blacklisted_subfolder (".git") = true ∧ (".git") ∉ (find_library_folder blRepo true).2 :=
  ⟨by decide, blacklisted_subfolder_never_fetched blRepo true (".git") (by decide)⟩

/-! ## Lemmas about `get_json_from_url` -/

/-- A run of `j` retryable failures followed by a non-retryable failure
stops the loop at attempt `i + j` with that failure. -/
lemma urlopen_loop_stop (env : FetchEnv) (j : Nat) :
    ∀ (k i : Nat) (d : String), j < k →
      (∀ m, m < j → ∃ dm, env.attempt (i + m) = AttemptOutcome.err dm ∧
        determine_urlopen_retry dm = true) →
      env.attempt (i + j) = AttemptOutcome.err d →
      determine_urlopen_retry d = false →
      urlopen_loop env k i =
        (Except.error (FetchFailure.exc d),
          retry_trace env i j ++ [FetchEvent.attempt (i + j)]) := by
  induction j with
  | zero =>
    intro k i d hjk hpre herr hnr
    cases k with
    | zero => omega
    | succ k =>
      rw [Nat.add_zero] at herr ⊢
      simp only [urlopen_loop]
      rw [herr]
      simp [hnr, retry_trace]
  | succ j ih =>
    intro k i d hjk hpre herr hnr
    cases k with
    | zero => omega
    | succ k =>
      obtain ⟨d0, hd0, hr0⟩ := hpre 0 (Nat.succ_pos j)
      rw [Nat.add_zero] at hd0
      have ihx := ih k (i + 1) d (by omega)
        (fun m hm => by
          have heq : i + 1 + m = i + (m + 1) := by omega
          rw [heq]
          exact hpre (m + 1) (by omega))
        (by
          have heq : i + 1 + j = i + (j + 1) := by omega
          rw [heq]
          exact herr)
        hnr
      simp only [urlopen_loop]
      rw [hd0]
      simp only [hr0, if_true, ihx]
      have heq : i + 1 + j = i + (j + 1) := by omega
      rw [heq]
      simp [retry_trace, hd0, List.append_assoc]

/-- When every attempt of the remaining budget fails retryably, the loop
exhausts the budget and yields `TimeoutError`. -/
lemma urlopen_loop_exhaust (env : FetchEnv) (k : Nat) :
    ∀ i, (∀ m, m < k → ∃ dm, env.attempt (i + m) = AttemptOutcome.err dm ∧
        determine_urlopen_retry dm = true) →
      urlopen_loop env k i = (Except.error FetchFailure.timeoutError, retry_trace env i k) := by
  induction k with
  | zero => intro i _; simp [urlopen_loop, retry_trace]
  | succ k ih =>
    intro i hpre
    obtain ⟨d0, hd0, hr0⟩ := hpre 0 (Nat.succ_pos k)
    rw [Nat.add_zero] at hd0
    have ihx := ih (i + 1) (fun m hm => by
      have heq : i + 1 + m = i + (m + 1) := by omega
      rw [heq]
      exact hpre (m + 1) (by omega))
    simp only [urlopen_loop]
    rw [hd0]
    simp only [hr0, if_true, ihx]
    simp [retry_trace, hd0]

/-- C5: `get_json_from_url` retries a failed open only when the rendered
failure starts with one of the fixed retryable patterns — sleeping the
fixed delay first and, for the throttling (503) pattern, forcing a
rate-limit re-check for both API classes; a failure matching no pattern
propagates immediately with no further attempts; and when every attempt
fails retryably, the fixed budget of `maximum_urlopen_retries + 1`
attempts ends in `TimeoutError`. -/
theorem get_json_from_url_retry_policy (env : FetchEnv) :
    (∀ j d, j ≤ maximum_urlopen_retries →
      (∀ m, m < j → ∃ dm, env.attempt m = AttemptOutcome.err dm ∧
        determine_urlopen_retry dm = true) →
      env.attempt j = AttemptOutcome.err d → determine_urlopen_retry d = false →
      get_json_from_url env =
        (Except.error (FetchFailure.exc d),
          retry_trace env 0 j ++ [FetchEvent.attempt j])) ∧
    ((∀ m, m ≤ maximum_urlopen_retries →
        ∃ dm, env.attempt m = AttemptOutcome.err dm ∧ determine_urlopen_retry dm = true) →
      get_json_from_url env =
        (Except.error FetchFailure.timeoutError,
          retry_trace env 0 (maximum_urlopen_retries + 1))) := by
  constructor
  · intro j d hj hpre herr hnr
    have h := urlopen_loop_stop env j (maximum_urlopen_retries + 1) 0 d
      (Nat.lt_succ_of_le hj)
      (fun m hm => by simpa using hpre m hm)
      (by simpa using herr)
      hnr
    simpa using h
  · intro hall
    exact urlopen_loop_exhaust env (maximum_urlopen_retries + 1) 0
      (fun m hm => by simpa using hall m (Nat.lt_succ_iff.mp hm))

theorem get_json_from_url_retry_policy_witness :
    get_json_from_url env_permanent_failure =
      (Except.error (FetchFailure.exc ("ValueError: boom")), [FetchEvent.attempt 0]) ∧
    get_json_from_url env_transient_failure =
      (Except.error FetchFailure.timeoutError, retry_trace env_transient_failure 0 6) := by
  constructor
  · have h := (get_json_from_url_retry_policy env_permanent_failure).1 0
      ("ValueError: boom") (by decide)
      (fun m hm => absurd hm (Nat.not_lt_zero m)) rfl (by decide)
    simpa [retry_trace] using h
  · exact (get_json_from_url_retry_policy env_transient_failure).2
      (fun m _ => ⟨"ConnectionResetError: [Errno 104] Connection reset by peer", rfl, by decide⟩)

/-! ## Lemmas about the search retry loop -/

/-- A run of `j` rejected pages followed by an accepted page stops the
loop at try `i + j`, accepting that page. -/
lemma search_loop_firstgood (tries : Nat → SearchPage) (page : Nat) (j : Nat) :
    ∀ (k i : Nat) (last : SearchPage), j < k →
      (∀ m, m < j → search_result_bad (tries (i + m)) = true) →
      search_result_bad (tries (i + j)) = false →
      search_page_loop tries page k i last =
        (tries (i + j), search_trace tries page i j ++ [SearchEvent.fetch page (i + j)]) := by
  induction j with
  | zero =>
    intro k i last hjk hpre hgood
    cases k with
    | zero => omega
    | succ k =>
      rw [Nat.add_zero] at hgood ⊢
      rw [search_result_bad, Bool.or_eq_false_iff] at hgood
      have hz : ¬((tries i).total_count = 0) := by
        intro h
        have := hgood.2
        rw [h] at this
        simp at this
      simp [search_page_loop, hgood.1, hz, search_trace]
  | succ j ih =>
    intro k i last hjk hpre hgood
    cases k with
    | zero => omega
    | succ k =>
      have hb0 := hpre 0 (Nat.succ_pos j)
      rw [Nat.add_zero] at hb0
      have heq : i + 1 + j = i + (j + 1) := by omega
      have ihx := ih k (i + 1) (tries i) (by omega)
        (fun m hm => by
          have heqm : i + 1 + m = i + (m + 1) := by omega
          rw [heqm]
          exact hpre (m + 1) (by omega))
        (by rw [heq]; exact hgood)
      rw [search_result_bad, Bool.or_eq_true] at hb0
      by_cases hinc : (tries i).incomplete = true
      · simp only [search_page_loop]
        rw [if_pos hinc, ihx, heq]
        simp [search_trace, hinc, List.append_assoc]
      · rw [Bool.not_eq_true] at hinc
        have hz : (tries i).total_count = 0 := by
          rcases hb0 with h | h
          · rw [hinc] at h; exact absurd h (by simp)
          · simpa using h
        simp only [search_page_loop]
        rw [if_neg (by rw [hinc]; simp), if_pos (by rw [hz]; simp), ihx, heq]
        simp [search_trace, hinc, List.append_assoc]

/-- When the whole retry budget is rejected, the loop accepts the last
fetched page. -/
lemma search_loop_exhaust (tries : Nat → SearchPage) (page : Nat) (k : Nat) :
    ∀ (i : Nat) (last : SearchPage),
      (∀ m, m < k + 1 → search_result_bad (tries (i + m)) = true) →
      search_page_loop tries page (k + 1) i last =
        (tries (i + k), search_trace tries page i (k + 1)) := by
  induction k with
  | zero =>
    intro i last hbad
    have hb := hbad 0 Nat.one_pos
    rw [Nat.add_zero] at hb ⊢
    rw [search_result_bad, Bool.or_eq_true] at hb
    by_cases hinc : (tries i).incomplete = true
    · simp [search_page_loop, hinc, search_trace]
    · rw [Bool.not_eq_true] at hinc
      have hz : (tries i).total_count = 0 := by
        rcases hb with h | h
        · rw [hinc] at h; exact absurd h (by simp)
        · simpa using h
      simp [search_page_loop, hinc, hz, search_trace]
  | succ k ih =>
    intro i last hbad
    have hb0 := hbad 0 (by omega)
    rw [Nat.add_zero] at hb0
    have heq : i + 1 + k = i + (k + 1) := by omega
    have ihx := ih (i + 1) (tries i) (fun m hm => by
      have heqm : i + 1 + m = i + (m + 1) := by omega
      rw [heqm]
      exact hbad (m + 1) (by omega))
    have hstep : search_page_loop tries page (k + 1 + 1) i last =
        (if (tries i).incomplete then
          ((search_page_loop tries page (k + 1) (i + 1) (tries i)).1,
            SearchEvent.fetch page i :: (SearchEvent.sleep search_retry_delay ::
              (search_page_loop tries page (k + 1) (i + 1) (tries i)).2))
        else if (tries i).total_count == 0 then
          ((search_page_loop tries page (k + 1) (i + 1) (tries i)).1,
            SearchEvent.fetch page i :: (search_page_loop tries page (k + 1) (i + 1) (tries i)).2)
        else (tries i, [SearchEvent.fetch page i])) := rfl
    rw [hstep, ihx, heq]
    rw [search_result_bad, Bool.or_eq_true] at hb0
    by_cases hinc : (tries i).incomplete = true
    · rw [if_pos hinc]
      simp [search_trace, hinc]
    · rw [Bool.not_eq_true] at hinc
      have hz : (tries i).total_count = 0 := by
        rcases hb0 with h | h
        · rw [hinc] at h; exact absurd h (by simp)
        · simpa using h
      rw [if_neg (by rw [hinc]; simp), if_pos (by rw [hz]; simp)]
      simp [search_trace, hinc]

/-- C7: a page reporting incomplete results or zero total results is
re-requested (same page number) up to `maximum_search_retries` tries, the
last response then being accepted as final; the fixed delay is slept
before retrying only after an incomplete response, never after a
zero-result response. -/
theorem search_page_retry_policy (tries : Nat → SearchPage) (page : Nat) :
    (∀ j, j < maximum_search_retries →
      (∀ m, m < j → search_result_bad (tries m) = true) →
      search_result_bad (tries j) = false →
      fetch_search_page tries page =
        (tries j, search_trace tries page 0 j ++ [SearchEvent.fetch page j])) ∧
    ((∀ m, m < maximum_search_retries → search_result_bad (tries m) = true) →
      fetch_search_page tries page =
        (tries (maximum_search_retries - 1), search_trace tries page 0 maximum_search_retries)) := by
  constructor
  · intro j hj hpre hgood
    have h := search_loop_firstgood tries page j maximum_search_retries 0 ⟨true, 0⟩ hj
      (fun m hm => by simpa using hpre m hm)
      (by simpa using hgood)
    simpa [fetch_search_page] using h
  · intro hall
    have h := search_loop_exhaust tries page 9 0 ⟨true, 0⟩
      (fun m hm => by simpa using hall m hm)
    simpa [fetch_search_page] using h

theorem search_page_retry_policy_witness :
    fetch_search_page triesC7 7 =
      (⟨false, 3⟩, [SearchEvent.fetch 7 0, SearchEvent.sleep 60,
        SearchEvent.fetch 7 1, SearchEvent.fetch 7 2]) := by
  have h := (search_page_retry_policy triesC7 7).1 2 (by decide) (by decide) (by decide)
  exact h.trans (by decide)

/-! ## `check_rate_limiting` -/

/-- C6: `check_rate_limiting` releases its caller only with a cached
remaining value that is positive for the requested API class; whenever
the cached value is 0 its first action is a fetch of the budget-status
endpoint (updating both classes), and if the authoritative value is still
0 it waits until the class's reset time plus the grace delay and then
re-validates against the authoritative source (another budget-status
fetch) before anything else. -/
theorem check_rate_limiting_returns_positive (readings : Nat → RLReading) (api : String)
    (fuel : Nat) :
    ∀ (idx : Nat) (st st2 : RLState) (evs : List RLEvent),
      (api = "search" ∨ api = "core") →
      check_rate_limiting readings api fuel idx st = some (st2, evs) →
      0 < st2.getApi api ∧
      (st.getApi api = 0 →
        evs.head? = some (RLEvent.fetchRateLimit idx) ∧
        ((readings idx).remainingOf api = 0 →
          evs.take 2 = [RLEvent.fetchRateLimit idx,
            RLEvent.waitUntil ((readings idx).resetOf api +
              rate_limit_reset_wait_additional_delay)] ∧
          (evs.drop 2).head? = some (RLEvent.fetchRateLimit (idx + 1)))) := by
  induction fuel with
  | zero => intro idx st st2 evs _ hret; simp [check_rate_limiting] at hret
  | succ fuel ih =>
    intro idx st st2 evs hapi hret
    have hstep : check_rate_limiting readings api (fuel + 1) idx st =
        (if st.getApi api == 0 then
          if (RLState.mk (readings idx).search_remaining (readings idx).core_remaining).getApi
              api == 0 then
            match check_rate_limiting readings api fuel (idx + 1)
                ⟨(readings idx).search_remaining, (readings idx).core_remaining⟩ with
            | none => none
            | some (st3, evs3) =>
              some (st3, RLEvent.fetchRateLimit idx ::
                (RLEvent.waitUntil ((readings idx).resetOf api +
                  rate_limit_reset_wait_additional_delay) :: evs3))
          else some (⟨(readings idx).search_remaining, (readings idx).core_remaining⟩,
            [RLEvent.fetchRateLimit idx])
        else some (st, [])) := rfl
    rw [hstep] at hret
    have hmkget : (RLState.mk (readings idx).search_remaining
        (readings idx).core_remaining).getApi api = (readings idx).remainingOf api := rfl
    by_cases h0 : (st.getApi api == 0) = true
    · rw [if_pos h0] at hret
      have hst0 : st.getApi api = 0 := by simpa using h0
      by_cases h1 : ((readings idx).remainingOf api == 0) = true
      · rw [if_pos (by rw [hmkget]; exact h1)] at hret
        cases hrec : check_rate_limiting readings api fuel (idx + 1)
            ⟨(readings idx).search_remaining, (readings idx).core_remaining⟩ with
        | none => rw [hrec] at hret; simp at hret
        | some p =>
          rcases p with ⟨st3, evs3⟩
          rw [hrec] at hret
          simp only [Option.some.injEq, Prod.mk.injEq] at hret
          obtain ⟨hst23, hevs⟩ := hret
          have ihx := ih (idx + 1) ⟨(readings idx).search_remaining,
            (readings idx).core_remaining⟩ st3 evs3 hapi hrec
          subst hst23
          constructor
          · exact ihx.1
          · intro _
            constructor
            · rw [← hevs]; rfl
            · intro _
              constructor
              · rw [← hevs]; rfl
              · rw [← hevs]
                have hrem0 : (RLState.mk (readings idx).search_remaining
                    (readings idx).core_remaining).getApi api = 0 := by
                  rw [hmkget]; simpa using h1
                have := (ihx.2 hrem0).1
                simpa using this
      · rw [if_neg (by rw [hmkget]; exact h1)] at hret
        simp only [Option.some.injEq, Prod.mk.injEq] at hret
        obtain ⟨hst23, hevs⟩ := hret
        subst hst23
        constructor
        · rw [hmkget]
          have : (readings idx).remainingOf api ≠ 0 := by simpa using h1
          omega
        · intro _
          constructor
          · rw [← hevs]; rfl
          · intro habs
            have : (readings idx).remainingOf api ≠ 0 := by simpa using h1
            exact absurd habs this
    · rw [if_neg h0] at hret
      simp only [Option.some.injEq, Prod.mk.injEq] at hret
      obtain ⟨hst23, hevs⟩ := hret
      subst hst23
      have hne : st.getApi api ≠ 0 := by simpa using h0
      exact ⟨by omega, fun habs => absurd habs hne⟩

theorem check_rate_limiting_returns_positive_witness :
    0 < (RLState.mk 7 5).getApi ("search") ∧
    ([RLEvent.fetchRateLimit 0, RLEvent.waitUntil 380,
      RLEvent.fetchRateLimit 1].head? = some (RLEvent.fetchRateLimit 0)) := by
  have h := check_rate_limiting_returns_positive readingsC6 ("search") 2 0 ⟨0, 3⟩ ⟨7, 5⟩
    [RLEvent.fetchRateLimit 0, RLEvent.waitUntil 380, RLEvent.fetchRateLimit 1]
    (Or.inl rfl) rfl
  exact ⟨h.1, (h.2 rfl).1⟩

/-! ## Pagination metadata of a successful fetch -/

lemma startsWithList_iff (p : List Char) :
    ∀ l, startsWithList l p = true ↔ ∃ post, l = p ++ post := by
  induction p with
  | nil => intro l; simp [startsWithList]
  | cons c p ih =>
    intro l
    cases l with
    | nil => simp [startsWithList]
    | cons d l' =>
      simp only [startsWithList, Bool.and_eq_true, beq_iff_eq, ih, List.cons_append,
        List.cons.injEq]
      constructor
      · rintro ⟨rfl, post, rfl⟩
        exact ⟨post, rfl, rfl⟩
      · rintro ⟨post, rfl, rfl⟩
        exact ⟨rfl, post, rfl⟩

lemma containsSub_iff (needle : List Char) :
    ∀ l, containsSub needle l = true ↔ ∃ pre post, l = pre ++ needle ++ post := by
  intro l
  induction l with
  | nil =>
    simp only [containsSub]
    constructor
    · intro h
      have hn : needle = [] := by simpa using h
      subst hn
      exact ⟨[], [], rfl⟩
    · rintro ⟨pre, post, heq⟩
      have h2 := heq.symm
      rw [List.append_eq_nil] at h2
      have h3 := h2.1
      rw [List.append_eq_nil] at h3
      rw [h3.2]
      rfl
  | cons c l' ih =>
    simp only [containsSub, Bool.or_eq_true, startsWithList_iff, ih]
    constructor
    · rintro (⟨post, heq⟩ | ⟨pre, post, rfl⟩)
      · exact ⟨[], post, by simpa using heq⟩
      · exact ⟨c :: pre, post, rfl⟩
    · rintro ⟨pre, post, heq⟩
      cases pre with
      | nil => exact Or.inl ⟨post, by simpa using heq⟩
      | cons a pre' =>
        rw [List.cons_append, List.cons_append, List.cons.injEq] at heq
        exact Or.inr ⟨pre', post, heq.2⟩

lemma page_param_loop_eq (qs : List (List Char)) :
    page_param_loop qs =
      (match qs.find? (fun q => q.take 5 == page_eq_marker.data) with
       | none => PageCount.int 1
       | some q => PageCount.str (String.mk ((splitCh isEqCh q).getD 1 []))) := by
  induction qs with
  | nil => rfl
  | cons q rest ih =>
    by_cases h : (q.take 5 == page_eq_marker.data) = true
    · simp [page_param_loop, List.find?_cons, h]
    · rw [Bool.not_eq_true] at h
      simp [page_param_loop, List.find?_cons, h, ih]

/-- The outer loop with its inner loop agrees with the `find?`-composition
reading. -/
lemma link_piece_loop_eq (ps : List (List Char)) :
    link_piece_loop ps =
      (match (ps.find? (fun p => lastN 13 p == last_rel_marker.data)).bind
          (fun p => ((splitCh isLinkSepCh p).find?
            (fun q => q.take 5 == page_eq_marker.data)).map
            (fun q => (splitCh isEqCh q).getD 1 [])) with
       | none => PageCount.int 1
       | some v => PageCount.str (String.mk v)) := by
  induction ps with
  | nil => rfl
  | cons p rest ih =>
    by_cases h : (lastN 13 p == last_rel_marker.data) = true
    · simp only [link_piece_loop, List.find?_cons, h, if_true, Option.some_bind]
      rw [page_param_loop_eq]
      generalize (splitCh isLinkSepCh p).find? (fun q => q.take 5 == page_eq_marker.data) = F2
      cases F2 with
      | none => rfl
      | some q => rfl
    · rw [Bool.not_eq_true] at h
      simp [link_piece_loop, List.find?_cons, h, ih]

/-- The loop-with-breaks extraction of the page count agrees with the
spec-side `find?`-style reading of the `Link` header. -/
lemma page_count_from_link_eq (s : List Char) :
    page_count_from_link s =
      (match last_rel_page s with
       | none => PageCount.int 1
       | some v => PageCount.str (String.mk v)) := by
  rw [page_count_from_link, link_piece_loop_eq, last_rel_page]

/-- C8: a successful first fetch returns the decoded result; an empty body
yields `additional_pages = false` and `page_count = 0`; a non-empty body
yields `additional_pages = true` exactly when the `Link` header contains
the `next`-relation marker as a substring, and a `page_count` equal to the
page number split out of the first `last` relation when present, the
integer 1 otherwise; and `additional_pages` is never true for an empty
body. -/
theorem get_json_from_url_pagination (env : FetchEnv) (resp : UrlResponse)
    (hok : env.attempt 0 = AttemptOutcome.ok resp) :
    get_json_from_url env = (Except.ok (mk_fetch_result resp), [FetchEvent.attempt 0]) ∧
    (resp.body_empty = true →
      (mk_fetch_result resp).additional_pages = false ∧
      (mk_fetch_result resp).page_count = PageCount.int 0) ∧
    (resp.body_empty = false →
      ((mk_fetch_result resp).additional_pages = true ↔
        ∃ s pre post, resp.link = some s ∧ s.data = pre ++ next_rel_marker.data ++ post) ∧
      (mk_fetch_result resp).page_count = page_count_spec resp.link) ∧
    ((mk_fetch_result resp).additional_pages = true → resp.body_empty = false) := by
  refine ⟨?_, ?_, ?_, ?_⟩
  · have hstep : get_json_from_url env =
        (match env.attempt 0 with
         | AttemptOutcome.ok r => (Except.ok (mk_fetch_result r), [FetchEvent.attempt 0])
         | AttemptOutcome.err d =>
           if determine_urlopen_retry d then
             ((urlopen_loop env maximum_urlopen_retries 1).1,
               FetchEvent.attempt 0 ::
                 (retry_events d ++ (urlopen_loop env maximum_urlopen_retries 1).2))
           else (Except.error (FetchFailure.exc d), [FetchEvent.attempt 0])) := rfl
    rw [hstep, hok]
  · intro he
    simp [mk_fetch_result, he]
  · intro he
    constructor
    · cases hl : resp.link with
      | none => simp [mk_fetch_result, he, hl]
      | some s => simp [mk_fetch_result, he, hl, containsSub_iff]
    · cases hl : resp.link with
      | none => simp [mk_fetch_result, he, hl, page_count_spec]
      | some s => simp [mk_fetch_result, he, hl, page_count_spec, page_count_from_link_eq]
  · intro hap
    by_cases he : resp.body_empty = true
    · have : (mk_fetch_result resp).additional_pages = false := by
        simp [mk_fetch_result, he]
      rw [this] at hap
      exact absurd hap (by simp)
    · simpa using he

theorem get_json_from_url_pagination_witness :
    get_json_from_url envC8 = (Except.ok (mk_fetch_result respC8), [FetchEvent.attempt 0]) ∧
    (mk_fetch_result respC8).additional_pages = true ∧
    (mk_fetch_result respC8).page_count = PageCount.str ("9") := by
  refine ⟨(get_json_from_url_pagination envC8 respC8 rfl).1, by decide, by decide⟩

/-! ## The duplicate check of `populate_row` -/

/-- C9 counterexample: appended cells are tab-replaced and stripped while
the duplicate check compares the raw URL, so inserting the URL `"a "` into
a duplicate-free table already holding the cell `"a"` produces two rows
with the same repository-URL cell. -/
theorem populate_row_duplicate_invariant_cex :
    List.Nodup ["a"] ∧
    populate_row ["a"] ("a ") false (some ("/")) true = ["a", "a"] ∧
    ¬ List.Nodup ["a", "a"] :=
  ⟨by decide, by decide, by decide⟩

/-- C9 (amended): when the URL equals the repository-URL cell of some row,
`populate_row` returns the table unchanged (no append), and a row is
appended only after this check; consequently the no-duplicate invariant is
preserved for every URL that sanitization (tab replacement and whitespace
strip) leaves unchanged — in particular for every URL without tabs or
surrounding whitespace. -/
theorem populate_row_duplicate_check (table : List String) (html_url : String)
    (skip_gate : Bool) (library_folder : Option String) (verify : Bool) :
    ((∃ row ∈ table, row = html_url) →
      populate_row table html_url skip_gate library_folder verify = table) ∧
    (sanitize_cell html_url = html_url → table.Nodup →
      (populate_row table html_url skip_gate library_folder verify).Nodup) := by
  constructor
  · rintro ⟨row, hmem, rfl⟩
    unfold populate_row
    by_cases hg : skip_gate = true
    · rw [if_pos hg]
    · rw [if_neg hg,
        if_pos (by rw [List.any_eq_true]; exact ⟨row, hmem, by simp⟩)]
  · intro hsan hnd
    unfold populate_row
    split_ifs with h1 h2 h3
    · exact hnd
    · exact hnd
    · exact hnd
    · rw [hsan, List.nodup_append]
      refine ⟨hnd, List.nodup_singleton _, ?_⟩
      intro a ha hb
      rw [List.mem_singleton] at hb
      subst hb
      apply h2
      rw [List.any_eq_true]
      exact ⟨a, ha, by simp⟩

theorem populate_row_duplicate_check_witness :
    populate_row ["x"] ("x") false (some ("/")) true = ["x"] ∧
    (populate_row ["x"] ("y") false (some ("/")) true).Nodup := by
  constructor
  · exact (populate_row_duplicate_check ["x"] ("x") false (some ("/")) true).1
      ⟨"x", by simp, rfl⟩
  · exact (populate_row_duplicate_check ["x"] ("y") false (some ("/")) true).2
      (by decide) (by decide)

end Inoliblist
